import Mathlib

/-!
Shallow embedding of the alignment-and-conservation engine of the
`ncbi-gene-comparator` repository (src/lib/comparison.js,
src/lib/protein-comparison.js, the reading-frame module contained in
src/unnamed/part_000, and src/lib/constants.js), together with the
spec-side definitions needed for the refinement claims, and theorems
settling the claims.

Sequences are modelled as `List Char`.  The JS numbers appearing in the
identity computations are modelled as exact rationals `ℚ`.  The
`Infinity` initial value of `bestMismatches` in `compareSequences` is
modelled as `(⊤ : ℕ∞)`; a finite mismatch count `k` is `(k : ℕ∞)`.
-/

/-! ### Constants (src/lib/constants.js) -/

def CODON_SIZE : Nat := 3

def MIN_IDENTITY : ℚ := 67 / 100

def MIN_SIGNIFICANT_LENGTH_GROUP : ℚ := 15 / 100

def SEGMENT_WINDOW_LENGTH : Nat := 66

def AA_SEGMENT_WINDOW_LENGTH : Nat := SEGMENT_WINDOW_LENGTH / CODON_SIZE

def MIN_SEQUENCE_OVERLAP_PCT : ℚ := 1 / 2

/-! ### Region Comparator (`compareSequenceRegions`, src/lib/comparison.js lines 12-31) -/

structure RegionComparison where
  matchCount : Nat
  mismatches : Nat
  identity : ℚ
  mask : List Char
  deriving DecidableEq

/-- Loop body of `compareSequenceRegions`: mismatch count and mask after the
first `n` iterations of the `for` loop.  In JS, indexing a string past its
end yields `undefined`; two out-of-range positions compare equal
(`undefined === undefined`) and `mask += seq1[i]` then appends the text
`undefined`.  All call sites in the repository use `n ≤ min length`, so the
out-of-range branches are never taken there. -/
def regionGo (seq1 seq2 : List Char) : Nat → Nat × List Char
  | 0 => (0, [])
  | n + 1 =>
    let acc := regionGo seq1 seq2 n
    match seq1.get? n, seq2.get? n with
    | some a, some b => if a = b then (acc.1, acc.2 ++ [a]) else (acc.1 + 1, acc.2 ++ ['?'])
    | none, none => (acc.1, acc.2 ++ "undefined".toList)
    | _, _ => (acc.1 + 1, acc.2 ++ ['?'])

/-- `compareSequenceRegions(seq1, seq2, length)`: positional comparison over
`length` positions producing matches, mismatches, identity and the
match/mismatch mask (`?` marks a mismatch). -/
def compareSequenceRegions (seq1 seq2 : List Char) (len : Nat) : RegionComparison :=
  let r := regionGo seq1 seq2 len
  { matchCount := len - r.1
    mismatches := r.1
    identity := if len > 0 then 1 - (r.1 : ℚ) / (len : ℚ) else 0
    mask := r.2 }

/-! ### Conserved Block Extractor (`findConservedBlocks`, src/lib/comparison.js lines 34-88) -/

structure ConservedBlock where
  start : Nat
  stop : Nat
  sequence : List Char
  length : Nat
  deriving DecidableEq

/-- Identity of one window of the mask:
`1 - mismatches / window.length` where mismatches counts the `?` characters
(the source counts them with the regex `/\?/g`). -/
def windowIdentity (win : List Char) : ℚ :=
  1 - ((win.countP fun c => c = '?' : Nat) : ℚ) / (win.length : ℚ)

/-- Number of iterations of the loop `for (i = 0; i < len; i += w)`
(for `w > 0` this is `⌈len / w⌉`). -/
def numWindows (len w : Nat) : Nat := (len + w - 1) / w

/-- The loop indices `0, w, 2w, …` that are `< len`. -/
def windowStarts (len w : Nat) : List Nat :=
  (List.range (numWindows len w)).map fun j => j * w

/-- The windows `mask.slice(i, i + w)` of the loop, paired with their start
index `i`. -/
def maskWindows (mask : List Char) (w : Nat) : List (Nat × List Char) :=
  (windowStarts mask.length w).map fun i => (i, (mask.drop i).take w)

/-- Mutable state of the block-construction loop in `findConservedBlocks`. -/
structure BlockState where
  blocks : List ConservedBlock
  currentBlock : List Char
  blockStart : Nat
  inBlock : Bool

/-- The `saveBlock` helper of `findConservedBlocks`: pushes the current block
(when non-empty) and resets the accumulator.  The `stop` field is named
`end` in the source; `end` is a Lean keyword. -/
def saveBlock (st : BlockState) : BlockState :=
  if st.currentBlock.length > 0 then
    { blocks := st.blocks ++
        [{ start := st.blockStart
           stop := st.blockStart + st.currentBlock.length
           sequence := st.currentBlock
           length := st.currentBlock.length }]
      currentBlock := []
      blockStart := st.blockStart
      inBlock := false }
  else st

/-- The window loop of `findConservedBlocks`, over the list of
(start index, window) pairs. -/
def blockLoop (minIdentity : ℚ) : BlockState → List (Nat × List Char) → BlockState
  | st, [] => st
  | st, (i, win) :: rest =>
    if windowIdentity win ≥ minIdentity then
      let st1 := if st.inBlock then st else { st with blockStart := i, inBlock := true }
      blockLoop minIdentity { st1 with currentBlock := st1.currentBlock ++ win } rest
    else
      blockLoop minIdentity (saveBlock st) rest

/-- Blocks constructed by `findConservedBlocks` before the significance
filter (source lines 34-71). -/
def buildBlocks (mask : List Char) (w : Nat) (minIdentity : ℚ) : List ConservedBlock :=
  (saveBlock (blockLoop minIdentity ⟨[], [], 0, false⟩ (maskWindows mask w))).blocks

/-- `Math.max(...l)` over a list of naturals (used on a non-empty list in the
source). -/
def listMax (l : List Nat) : Nat := l.foldl max 0

/-- The significance filter of `findConservedBlocks` (source lines 73-87):
when more than one block exists, drop the blocks smaller than
`maxLength * MIN_SIGNIFICANT_LENGTH_GROUP`, unless that would drop them
all. -/
def filterBlocks (blocks : List ConservedBlock) : List ConservedBlock :=
  if blocks.length > 1 then
    let maxLength := listMax (blocks.map fun b => b.length)
    let minSignificantLength : ℚ := (maxLength : ℚ) * MIN_SIGNIFICANT_LENGTH_GROUP
    let filteredBlocks := blocks.filter fun b => (b.length : ℚ) ≥ minSignificantLength
    if filteredBlocks.length > 0 then filteredBlocks else blocks
  else blocks

/-- `findConservedBlocks(mask, windowSize, minIdentity)`: window scan plus the
relative-size significance filter (source lines 34-88). -/
def findConservedBlocks (mask : List Char) (w : Nat) (minIdentity : ℚ) : List ConservedBlock :=
  filterBlocks (buildBlocks mask w minIdentity)

/-! ### Offset Alignment Search (`compareSequences`, src/lib/comparison.js lines 93-174) -/

structure AlignmentResult where
  mask : List Char
  mismatches : ℕ∞
  length : Nat
  identity : ℚ
  truncated : Bool
  offset1 : Nat
  offset2 : Nat
  conservedBlocks : List ConservedBlock
  deriving DecidableEq

structure ScanState where
  bestOffset1 : Nat
  bestOffset2 : Nat
  bestIdentity : ℚ
  bestMask : List Char
  bestOverlapLen : Nat
  bestMismatches : ℕ∞
  deriving DecidableEq

/-- `start1 = Math.max(0, offset)`. -/
def start1At (offset : Int) : Nat := (max 0 offset).toNat

/-- `start2 = Math.max(0, -offset)`. -/
def start2At (offset : Int) : Nat := (max 0 (-offset)).toNat

/-- `overlapLen = Math.min(seq1.length - start1, seq2.length - start2)`. -/
def overlapLenAt (seq1 seq2 : List Char) (offset : Int) : Nat :=
  min (seq1.length - start1At offset) (seq2.length - start2At offset)

/-- The `compareSequenceRegions` call made by `compareSequences` at a given
offset, on the two overlapping slices. -/
def comparisonAt (seq1 seq2 : List Char) (offset : Int) : RegionComparison :=
  compareSequenceRegions
    ((seq1.drop (start1At offset)).take (overlapLenAt seq1 seq2 offset))
    ((seq2.drop (start2At offset)).take (overlapLenAt seq1 seq2 offset))
    (overlapLenAt seq1 seq2 offset)

/-- The list `lo, lo+1, …` of `n` consecutive integers (the offsets visited
by the `for` loop of `compareSequences`). -/
def offsetRangeGo : Nat → Int → List Int
  | 0, _ => []
  | n + 1, lo => lo :: offsetRangeGo n (lo + 1)

/-- The closed integer range `[lo, hi]` as a list. -/
def offsetRange (lo hi : Int) : List Int := offsetRangeGo (hi - lo + 1).toNat lo

/-- The offset loop of `compareSequences`, including the
`if (mismatches === 0) break;` early exit. -/
def scanOffsets (seq1 seq2 : List Char) (minOverlap : Nat) :
    ScanState → List Int → ScanState
  | st, [] => st
  | st, offset :: rest =>
    if overlapLenAt seq1 seq2 offset < minOverlap then
      scanOffsets seq1 seq2 minOverlap st rest
    else
      let comparison := comparisonAt seq1 seq2 offset
      let st1 :=
        if comparison.identity > st.bestIdentity + 1 / 100 ∨
            (|comparison.identity - st.bestIdentity| < 1 / 100 ∧
              overlapLenAt seq1 seq2 offset > st.bestOverlapLen) then
          { bestOffset1 := start1At offset
            bestOffset2 := start2At offset
            bestIdentity := comparison.identity
            bestMask := comparison.mask
            bestOverlapLen := overlapLenAt seq1 seq2 offset
            bestMismatches := (comparison.mismatches : ℕ∞) }
        else st
      if comparison.mismatches = 0 then st1
      else scanOffsets seq1 seq2 minOverlap st1 rest

/-- Initial state of the offset scan (`bestMismatches = Infinity`). -/
def initScanState : ScanState := ⟨0, 0, 0, [], 0, ⊤⟩

/-- `minOverlap = Math.ceil(Math.min(n, m) * MIN_SEQUENCE_OVERLAP_PCT)`. -/
def minOverlapOf (seq1 seq2 : List Char) : Nat :=
  Nat.ceil ((min seq1.length seq2.length : ℚ) * MIN_SEQUENCE_OVERLAP_PCT)

/-- `compareSequences(seq1, seq2)` (the spec's `alignSequences`): degenerate
result for an empty input, otherwise the offset scan followed by one
`findConservedBlocks` call on the winning mask. -/
def compareSequences (seq1 seq2 : List Char) : AlignmentResult :=
  if seq1.length = 0 ∨ seq2.length = 0 then
    { mask := []
      mismatches := 0
      length := 0
      identity := 0
      truncated := true
      offset1 := 0
      offset2 := 0
      conservedBlocks := [] }
  else
    let minOverlap := minOverlapOf seq1 seq2
    let st := scanOffsets seq1 seq2 minOverlap initScanState
      (offsetRange (-(seq2.length : Int) + minOverlap) ((seq1.length : Int) - minOverlap))
    let conservedBlocks := findConservedBlocks st.bestMask SEGMENT_WINDOW_LENGTH MIN_IDENTITY
    { mask := st.bestMask
      mismatches := st.bestMismatches
      length := st.bestOverlapLen
      identity := st.bestIdentity
      truncated := (seq1.length != seq2.length) || (st.bestOffset1 != 0) || (st.bestOffset2 != 0)
      offset1 := st.bestOffset1
      offset2 := st.bestOffset2
      conservedBlocks := conservedBlocks }

/-! ### Spec-side definitions

`scanOffsetsAll` / `compareSequencesAll` follow the words of spec §4.2: the
same enumeration, overlap computation and selection rule, but scanning every
offset of the range ("enumerate every integer offset o in the closed range"),
without the early exit.  `specRuns` / `specConservedBlocks` follow the words
of spec §4.3 / claim C5: windows of size `W` at positions `0, W, 2W, …`,
a window accepted iff its identity is at least the threshold, and maximal
runs of consecutive accepted windows merged into single blocks. -/

/-- Modelled from the spec (§4.2): the offset loop without the
`mismatches === 0` early exit. -/
def scanOffsetsAll (seq1 seq2 : List Char) (minOverlap : Nat) :
    ScanState → List Int → ScanState
  | st, [] => st
  | st, offset :: rest =>
    if overlapLenAt seq1 seq2 offset < minOverlap then
      scanOffsetsAll seq1 seq2 minOverlap st rest
    else
      let comparison := comparisonAt seq1 seq2 offset
      let st1 :=
        if comparison.identity > st.bestIdentity + 1 / 100 ∨
            (|comparison.identity - st.bestIdentity| < 1 / 100 ∧
              overlapLenAt seq1 seq2 offset > st.bestOverlapLen) then
          { bestOffset1 := start1At offset
            bestOffset2 := start2At offset
            bestIdentity := comparison.identity
            bestMask := comparison.mask
            bestOverlapLen := overlapLenAt seq1 seq2 offset
            bestMismatches := (comparison.mismatches : ℕ∞) }
        else st
      scanOffsetsAll seq1 seq2 minOverlap st1 rest

/-- Modelled from the spec (§4.2): `compareSequences` with the exhaustive
scan over all offsets in the enumerated range under the stated selection
rule, instead of the early-exit scan. -/
def compareSequencesAll (seq1 seq2 : List Char) : AlignmentResult :=
  if seq1.length = 0 ∨ seq2.length = 0 then
    { mask := []
      mismatches := 0
      length := 0
      identity := 0
      truncated := true
      offset1 := 0
      offset2 := 0
      conservedBlocks := [] }
  else
    let minOverlap := minOverlapOf seq1 seq2
    let st := scanOffsetsAll seq1 seq2 minOverlap initScanState
      (offsetRange (-(seq2.length : Int) + minOverlap) ((seq1.length : Int) - minOverlap))
    let conservedBlocks := findConservedBlocks st.bestMask SEGMENT_WINDOW_LENGTH MIN_IDENTITY
    { mask := st.bestMask
      mismatches := st.bestMismatches
      length := st.bestOverlapLen
      identity := st.bestIdentity
      truncated := (seq1.length != seq2.length) || (st.bestOffset1 != 0) || (st.bestOffset2 != 0)
      offset1 := st.bestOffset1
      offset2 := st.bestOffset2
      conservedBlocks := conservedBlocks }

/-- A window is accepted iff its identity is at least the threshold. -/
def acceptedWin (minIdentity : ℚ) (p : Nat × List Char) : Bool :=
  decide (windowIdentity p.2 ≥ minIdentity)

/-- Modelled from the spec (claim C5): the maximal runs of consecutive
accepted windows, in left-to-right order. -/
def specRuns (minIdentity : ℚ) : List (Nat × List Char) → List (List (Nat × List Char))
  | [] => []
  | p :: rest =>
    if acceptedWin minIdentity p then
      (p :: rest.takeWhile (acceptedWin minIdentity)) ::
        specRuns minIdentity (rest.dropWhile (acceptedWin minIdentity))
    else
      specRuns minIdentity rest
termination_by l => l.length
decreasing_by
  · exact Nat.lt_succ_of_le (List.dropWhile_suffix _).length_le
  · exact Nat.lt_succ_of_le (Nat.le_refl _)

/-- The single block obtained by merging one run of consecutive accepted
windows: its start is the start of the first window of the run, its content
the concatenation of the windows. -/
def blockOfRun (run : List (Nat × List Char)) : ConservedBlock :=
  let start := (run.head?.map fun p => p.1).getD 0
  let content := (run.map fun p => p.2).flatten
  { start := start
    stop := start + content.length
    sequence := content
    length := content.length }

/-- Modelled from the spec (§4.3, claim C5): partition the mask into windows
of size `w` at positions `0, w, 2w, …`, accept a window iff its identity is
`≥ minIdentity`, and merge maximal runs of consecutive accepted windows into
single blocks, in left-to-right order. -/
def specConservedBlocks (mask : List Char) (w : Nat) (minIdentity : ℚ) : List ConservedBlock :=
  (specRuns minIdentity (maskWindows mask w)).map blockOfRun

/-- The block obtained when a block already open with start `bs` and content
`cb` absorbs the windows `tw` (used in the statement of the loop/run
correspondence). -/
def blockOfOpen (bs : Nat) (cb : List Char) (tw : List (Nat × List Char)) : ConservedBlock :=
  let content := cb ++ (tw.map fun p => p.2).flatten
  { start := bs
    stop := bs + content.length
    sequence := content
    length := content.length }

/-! ### Codon Translator and Reading-Frame Search
(src/unnamed/part_000 lines 215-334; `translateDNA` comes from
src/lib/translation.js, which is not among the sources) -/

/-- Modelled from the spec: `src/lib/translation.js` is absent from the
sources; per spec §2 and §8.6 the Codon Translator maps each nucleotide
triplet to a single-letter amino-acid code of the standard genetic code,
maps the stop codons TAA/TAG/TGA to `*`, and maps any codon containing a
symbol outside A/C/G/T to the unknown symbol `X`. -/
def aminoAcidOfCodon (a b c : Char) : Char :=
  match a, b, c with
  | 'T', 'T', 'T' => 'F' | 'T', 'T', 'C' => 'F' | 'T', 'T', 'A' => 'L' | 'T', 'T', 'G' => 'L'
  | 'C', 'T', 'T' => 'L' | 'C', 'T', 'C' => 'L' | 'C', 'T', 'A' => 'L' | 'C', 'T', 'G' => 'L'
  | 'A', 'T', 'T' => 'I' | 'A', 'T', 'C' => 'I' | 'A', 'T', 'A' => 'I' | 'A', 'T', 'G' => 'M'
  | 'G', 'T', 'T' => 'V' | 'G', 'T', 'C' => 'V' | 'G', 'T', 'A' => 'V' | 'G', 'T', 'G' => 'V'
  | 'T', 'C', 'T' => 'S' | 'T', 'C', 'C' => 'S' | 'T', 'C', 'A' => 'S' | 'T', 'C', 'G' => 'S'
  | 'C', 'C', 'T' => 'P' | 'C', 'C', 'C' => 'P' | 'C', 'C', 'A' => 'P' | 'C', 'C', 'G' => 'P'
  | 'A', 'C', 'T' => 'T' | 'A', 'C', 'C' => 'T' | 'A', 'C', 'A' => 'T' | 'A', 'C', 'G' => 'T'
  | 'G', 'C', 'T' => 'A' | 'G', 'C', 'C' => 'A' | 'G', 'C', 'A' => 'A' | 'G', 'C', 'G' => 'A'
  | 'T', 'A', 'T' => 'Y' | 'T', 'A', 'C' => 'Y' | 'T', 'A', 'A' => '*' | 'T', 'A', 'G' => '*'
  | 'C', 'A', 'T' => 'H' | 'C', 'A', 'C' => 'H' | 'C', 'A', 'A' => 'Q' | 'C', 'A', 'G' => 'Q'
  | 'A', 'A', 'T' => 'N' | 'A', 'A', 'C' => 'N' | 'A', 'A', 'A' => 'K' | 'A', 'A', 'G' => 'K'
  | 'G', 'A', 'T' => 'D' | 'G', 'A', 'C' => 'D' | 'G', 'A', 'A' => 'E' | 'G', 'A', 'G' => 'E'
  | 'T', 'G', 'T' => 'C' | 'T', 'G', 'C' => 'C' | 'T', 'G', 'A' => '*' | 'T', 'G', 'G' => 'W'
  | 'C', 'G', 'T' => 'R' | 'C', 'G', 'C' => 'R' | 'C', 'G', 'A' => 'R' | 'C', 'G', 'G' => 'R'
  | 'A', 'G', 'T' => 'S' | 'A', 'G', 'C' => 'S' | 'A', 'G', 'A' => 'R' | 'A', 'G', 'G' => 'R'
  | 'G', 'G', 'T' => 'G' | 'G', 'G', 'C' => 'G' | 'G', 'G', 'A' => 'G' | 'G', 'G', 'G' => 'G'
  | _, _, _ => 'X'

/-- Modelled from the spec: `translateDNA` translates consecutive full
triplets and drops the trailing 1-2 leftover symbols that cannot form a
full codon. -/
def translateDNA : List Char → List Char
  | a :: b :: c :: rest => aminoAcidOfCodon a b c :: translateDNA rest
  | _ => []

/-- `findStartCodon`: index of the first occurrence of `ATG`
(`seq.indexOf("ATG")`), `null` when absent. -/
def findStartCodon : List Char → Option Nat
  | [] => none
  | x :: xs =>
    if (x :: xs).take 3 = ['A', 'T', 'G'] then some 0
    else (findStartCodon xs).map fun i => i + 1

/-- Running best of the 3x3 reading-frame loop in `findBestReadingFrame`. -/
structure FrameBest where
  bestFrame1 : Nat
  bestFrame2 : Nat
  bestIdentity : ℚ
  bestAA1 : List Char
  bestAA2 : List Char
  deriving DecidableEq

/-- Result record of `findBestReadingFrame` / `adjustForReadingFrame`. -/
structure FrameResult where
  frame1 : Nat
  frame2 : Nat
  identity : ℚ
  aa1 : List Char
  aa2 : List Char
  adjustedOffset1 : Nat
  adjustedOffset2 : Nat
  deriving DecidableEq

/-- The 9 phase combinations in iteration order: `frame1` is the outer loop,
`frame2` the inner loop, each running `0, 1, 2`. -/
def frameCombos : List (Nat × Nat) :=
  (List.range CODON_SIZE).flatMap fun f1 => (List.range CODON_SIZE).map fun f2 => (f1, f2)

/-- `adjustedLen = Math.min(length - frame1, length - frame2)`.  In JS this
can be negative (for `length < 2`); here truncated subtraction yields `0`,
and both are below the `AA_SEGMENT_WINDOW_LENGTH = 22` guard, so the
combination is skipped either way. -/
def adjustedLenAt (len : Nat) (p : Nat × Nat) : Nat := min (len - p.1) (len - p.2)

/-- The translated-identity score of one phase combination: slice each
sequence at its frame-shifted offset, translate, and compare over the
shorter translated length. -/
def frameComparison (seq1 seq2 : List Char) (offset1 offset2 len : Nat)
    (p : Nat × Nat) : ℚ × List Char × List Char :=
  let start1 := offset1 + p.1
  let start2 := offset2 + p.2
  let adjustedLen := adjustedLenAt len p
  let aa1 := translateDNA ((seq1.drop start1).take adjustedLen)
  let aa2 := translateDNA ((seq2.drop start2).take adjustedLen)
  let minLen := min aa1.length aa2.length
  ((compareSequenceRegions aa1 aa2 minLen).identity, aa1, aa2)

/-- One iteration of the 3x3 loop of `findBestReadingFrame`, including the
`adjustedLen < AA_SEGMENT_WINDOW_LENGTH` skip guard. -/
def frameStep (seq1 seq2 : List Char) (offset1 offset2 len : Nat)
    (st : FrameBest) (p : Nat × Nat) : FrameBest :=
  if adjustedLenAt len p < AA_SEGMENT_WINDOW_LENGTH then st
  else
    let c := frameComparison seq1 seq2 offset1 offset2 len p
    if c.1 > st.bestIdentity then
      { bestFrame1 := p.1, bestFrame2 := p.2, bestIdentity := c.1
        bestAA1 := c.2.1, bestAA2 := c.2.2 }
    else st

/-- `findBestReadingFrame(seq1, seq2, offset1, offset2, length)`: try all 9
phase combinations and keep the one with the strictly highest translated
identity, starting from a running best of 0. -/
def findBestReadingFrame (seq1 seq2 : List Char) (offset1 offset2 len : Nat) : FrameResult :=
  let st := frameCombos.foldl (frameStep seq1 seq2 offset1 offset2 len) ⟨0, 0, 0, [], []⟩
  { frame1 := st.bestFrame1
    frame2 := st.bestFrame2
    identity := st.bestIdentity
    aa1 := st.bestAA1
    aa2 := st.bestAA2
    adjustedOffset1 := offset1 + st.bestFrame1
    adjustedOffset2 := offset2 + st.bestFrame2 }

/-- One iteration of the 3x3 loop without the skip guard (used to state
claim C6's characterisation of which combinations are evaluated). -/
def frameStepEval (seq1 seq2 : List Char) (offset1 offset2 len : Nat)
    (st : FrameBest) (p : Nat × Nat) : FrameBest :=
  let c := frameComparison seq1 seq2 offset1 offset2 len p
  if c.1 > st.bestIdentity then
    { bestFrame1 := p.1, bestFrame2 := p.2, bestIdentity := c.1
      bestAA1 := c.2.1, bestAA2 := c.2.2 }
  else st

/-- The phase combinations that are not skipped by the
`adjustedLen < AA_SEGMENT_WINDOW_LENGTH` guard. -/
def evaluatedCombos (len : Nat) : List (Nat × Nat) :=
  frameCombos.filter fun p => ¬ adjustedLenAt len p < AA_SEGMENT_WINDOW_LENGTH

/-- `adjustForReadingFrame(seq1, seq2, nucResult)`: the start-codon
detection and the frame inference from the ATG positions only produce log
output in the source; the returned value is always the result of the
exhaustive 3x3 search. -/
def adjustForReadingFrame (seq1 seq2 : List Char) (nucResult : AlignmentResult) : FrameResult :=
  let start1 := findStartCodon seq1
  let start2 := findStartCodon seq2
  let inferredFrames : Option (Int × Int) :=
    match start1, start2 with
    | some s1, some s2 =>
      some ((((nucResult.offset1 : Int) - s1) % CODON_SIZE + CODON_SIZE) % CODON_SIZE,
            (((nucResult.offset2 : Int) - s2) % CODON_SIZE + CODON_SIZE) % CODON_SIZE)
    | _, _ => none
  let _ := inferredFrames
  findBestReadingFrame seq1 seq2 nucResult.offset1 nucResult.offset2 nucResult.length

/-! ### Protein Comparator (`compareProteins`, src/lib/protein-comparison.js lines 10-38) -/

structure ProteinAlignmentResult where
  mask : List Char
  mismatches : Nat
  length : Nat
  identity : ℚ
  truncated : Bool
  offset1 : Nat
  offset2 : Nat
  frame1 : Nat
  frame2 : Nat
  conservedBlocks : List ConservedBlock
  deriving DecidableEq

structure CompareProteinsOutput where
  aa1 : List Char
  aa2 : List Char
  result : ProteinAlignmentResult
  deriving DecidableEq

/-- `compareProteins(seq1, seq2, nucResult)`: reading-frame search, then a
region comparison over the shorter translated length, then conserved blocks
with the amino-acid window, with protein-space offsets
`Math.floor(adjustedOffset / CODON_SIZE)`. -/
def compareProteins (seq1 seq2 : List Char) (nucResult : AlignmentResult) :
    CompareProteinsOutput :=
  let fr := adjustForReadingFrame seq1 seq2 nucResult
  let len := min fr.aa1.length fr.aa2.length
  let c := compareSequenceRegions fr.aa1 fr.aa2 len
  let conservedBlocks := findConservedBlocks c.mask AA_SEGMENT_WINDOW_LENGTH MIN_IDENTITY
  { aa1 := fr.aa1
    aa2 := fr.aa2
    result :=
      { mask := c.mask
        mismatches := c.mismatches
        length := len
        identity := c.identity
        truncated := fr.aa1.length != fr.aa2.length
        offset1 := fr.adjustedOffset1 / CODON_SIZE
        offset2 := fr.adjustedOffset2 / CODON_SIZE
        frame1 := fr.frame1
        frame2 := fr.frame2
        conservedBlocks := conservedBlocks } }

/-! ### Concrete inputs used by the claim witnesses and counterexamples -/

/-- The periodic sequence `AAAA` (counterexamples for C1 and C2). -/
def exA : List Char := "AAAA".toList

/-- The spec's perfect-match example sequence `ATGCCCGGG`. -/
def exW : List Char := "ATGCCCGGG".toList

/-- A fully mismatching pair: `AT`. -/
def exB1 : List Char := "AT".toList

/-- A fully mismatching pair: `GC`. -/
def exB2 : List Char := "GC".toList

/-- A 66-symbol fully matching mask (spec scenario 5). -/
def mask66 : List Char := List.replicate 66 'A'

/-- Two 66-symbol matching windows separated by 66 mismatch positions
(spec scenario 5). -/
def mask198 : List Char :=
  List.replicate 66 'A' ++ List.replicate 66 '?' ++ List.replicate 66 'A'

/-! ### Helper lemmas: Region Comparator -/

theorem regionGo_self (s : List Char) : ∀ k, k ≤ s.length → regionGo s s k = (0, s.take k) := by
  intro k
  induction k with
  | zero => intro _; simp [regionGo]
  | succ n ih =>
    intro h
    have hn : n < s.length := Nat.lt_of_succ_le h
    have hg : s.get? n = some (s.get ⟨n, hn⟩) := List.get?_eq_get hn
    simp only [regionGo, ih (Nat.le_of_lt hn), hg]
    simp [List.take_succ, hg]

theorem compareSequenceRegions_self (s : List Char) (h : s ≠ []) :
    compareSequenceRegions s s s.length =
      { matchCount := s.length, mismatches := 0, identity := 1, mask := s } := by
  have hlen : 0 < s.length := List.length_pos.mpr h
  simp only [compareSequenceRegions, regionGo_self s s.length (Nat.le_refl _)]
  simp [hlen, List.take_length]

theorem identity_eq_one_of_mismatches_zero (s1 s2 : List Char) (len : Nat) (hl : 0 < len)
    (h : (compareSequenceRegions s1 s2 len).mismatches = 0) :
    (compareSequenceRegions s1 s2 len).identity = 1 := by
  simp only [compareSequenceRegions] at h ⊢
  simp [h, hl]

theorem mismatches_ne_zero_of_identity_lt (s1 s2 : List Char) (len : Nat) (hl : 0 < len)
    (h : (compareSequenceRegions s1 s2 len).identity < 99 / 100) :
    (compareSequenceRegions s1 s2 len).mismatches ≠ 0 := by
  intro h0
  rw [identity_eq_one_of_mismatches_zero s1 s2 len hl h0] at h
  norm_num at h

/-! ### Helper lemmas: `listMax` -/

theorem le_foldl_max (l : List Nat) : ∀ i, i ≤ l.foldl max i := by
  induction l with
  | nil => intro i; exact Nat.le_refl i
  | cons a l ih =>
    intro i
    exact le_trans (Nat.le_max_left i a) (ih (max i a))

theorem mem_le_foldl_max (l : List Nat) : ∀ i, ∀ a ∈ l, a ≤ l.foldl max i := by
  induction l with
  | nil => intro i a ha; cases ha
  | cons b l ih =>
    intro i a ha
    rcases List.mem_cons.mp ha with rfl | ha
    · exact le_trans (Nat.le_max_right i a) (le_foldl_max l (max i a))
    · exact ih (max i b) a ha

theorem le_listMax_of_mem {a : Nat} {l : List Nat} (h : a ∈ l) : a ≤ listMax l :=
  mem_le_foldl_max l 0 a h

theorem foldl_max_le (l : List Nat) : ∀ i c, i ≤ c → (∀ x ∈ l, x ≤ c) → l.foldl max i ≤ c := by
  induction l with
  | nil => intro i c hi _; exact hi
  | cons a l ih =>
    intro i c hi h
    exact ih (max i a) c (max_le hi (h a (List.mem_cons_self a l)))
      fun x hx => h x (List.mem_cons_of_mem a hx)

theorem listMax_le {l : List Nat} {c : Nat} (h : ∀ x ∈ l, x ≤ c) : listMax l ≤ c :=
  foldl_max_le l 0 c (Nat.zero_le c) h

theorem foldl_max_mem (l : List Nat) : ∀ i, l.foldl max i ∈ l ∨ l.foldl max i = i := by
  induction l with
  | nil => intro i; exact Or.inr rfl
  | cons a l ih =>
    intro i
    rcases ih (max i a) with h | h
    · exact Or.inl (List.mem_cons_of_mem a h)
    · rcases max_choice i a with hm | hm
      · exact Or.inr (h.trans hm)
      · exact Or.inl (List.mem_cons.mpr (Or.inl (h.trans hm)))

theorem listMax_mem_or_zero (l : List Nat) : listMax l ∈ l ∨ listMax l = 0 :=
  foldl_max_mem l 0

/-! ### Helper lemmas: block construction versus spec-side run grouping -/

theorem blockOfRun_cons (p : Nat × List Char) (tw : List (Nat × List Char)) :
    blockOfRun (p :: tw) = blockOfOpen p.1 p.2 tw := by
  simp [blockOfRun, blockOfOpen]

theorem blockOfOpen_absorb (bs : Nat) (cb win : List Char) (tw : List (Nat × List Char)) (i : Nat) :
    blockOfOpen bs cb ((i, win) :: tw) = blockOfOpen bs (cb ++ win) tw := by
  simp [blockOfOpen]

theorem blockLoop_closed_open (T : ℚ) :
    ∀ ws : List (Nat × List Char), (∀ p ∈ ws, p.2 ≠ []) →
      (∀ blocks bs0,
        (saveBlock (blockLoop T ⟨blocks, [], bs0, false⟩ ws)).blocks =
          blocks ++ (specRuns T ws).map blockOfRun) ∧
      (∀ blocks bs cb, cb ≠ [] →
        (saveBlock (blockLoop T ⟨blocks, cb, bs, true⟩ ws)).blocks =
          blocks ++
            blockOfOpen bs cb (ws.takeWhile (acceptedWin T)) ::
              (specRuns T (ws.dropWhile (acceptedWin T))).map blockOfRun) := by
  intro ws
  induction ws with
  | nil =>
    intro _
    constructor
    · intro blocks bs0
      simp [blockLoop, saveBlock, specRuns]
    · intro blocks bs cb hcb
      have hpos : cb.length > 0 := List.length_pos.mpr hcb
      simp [blockLoop, saveBlock, hpos, specRuns, blockOfOpen]
  | cons p rest ih =>
    intro hws
    obtain ⟨i, win⟩ := p
    have hwin : win ≠ [] := hws (i, win) (List.mem_cons_self _ _)
    have ihrest := ih fun q hq => hws q (List.mem_cons_of_mem _ hq)
    obtain ⟨ihc, iho⟩ := ihrest
    constructor
    · intro blocks bs0
      by_cases h : windowIdentity win ≥ T
      · have hacc : acceptedWin T (i, win) = true := by
          simp [acceptedWin, h]
        have hstep : blockLoop T ⟨blocks, [], bs0, false⟩ ((i, win) :: rest) =
            blockLoop T ⟨blocks, win, i, true⟩ rest := by
          simp [blockLoop, h]
        rw [hstep, iho blocks i win hwin]
        rw [specRuns]
        simp only [hacc, if_true]
        simp [blockOfRun_cons]
      · have hacc : acceptedWin T (i, win) = false := by
          simp [acceptedWin, h]
        have hstep : blockLoop T ⟨blocks, [], bs0, false⟩ ((i, win) :: rest) =
            blockLoop T ⟨blocks, [], bs0, false⟩ rest := by
          simp [blockLoop, h, saveBlock]
        rw [hstep, ihc blocks bs0]
        rw [specRuns]
        simp [hacc]
    · intro blocks bs cb hcb
      by_cases h : windowIdentity win ≥ T
      · have hacc : acceptedWin T (i, win) = true := by
          simp [acceptedWin, h]
        have hstep : blockLoop T ⟨blocks, cb, bs, true⟩ ((i, win) :: rest) =
            blockLoop T ⟨blocks, cb ++ win, bs, true⟩ rest := by
          simp [blockLoop, h]
        rw [hstep, iho blocks bs (cb ++ win) (by simp [hcb])]
        rw [List.takeWhile_cons_of_pos hacc, List.dropWhile_cons_of_pos hacc]
        rw [blockOfOpen_absorb]
      · have hacc : acceptedWin T (i, win) = false := by
          simp [acceptedWin, h]
        have hpos : cb.length > 0 := List.length_pos.mpr hcb
        have hstep : blockLoop T ⟨blocks, cb, bs, true⟩ ((i, win) :: rest) =
            blockLoop T
              ⟨blocks ++ [{ start := bs, stop := bs + cb.length,
                            sequence := cb, length := cb.length }], [], bs, false⟩ rest := by
          simp [blockLoop, h, saveBlock, hpos]
        rw [hstep, ihc _ bs]
        rw [List.takeWhile_cons_of_neg (by simp [hacc]), List.dropWhile_cons_of_neg (by simp [hacc])]
        rw [specRuns]
        simp only [hacc, Bool.false_eq_true, if_false]
        simp [blockOfOpen]

theorem windowStarts_lt {len w i : Nat} (hw : 0 < w) (hi : i ∈ windowStarts len w) : i < len := by
  simp only [windowStarts, List.mem_map, List.mem_range] at hi
  obtain ⟨j, hj, rfl⟩ := hi
  have h1 : (j + 1) * w ≤ len + w - 1 :=
    (Nat.le_div_iff_mul_le hw).mp (Nat.succ_le_of_lt hj)
  have h2 : j * w + w = (j + 1) * w := by ring
  omega

theorem maskWindows_ne_nil {mask : List Char} {w : Nat} (hw : 0 < w) :
    ∀ p ∈ maskWindows mask w, p.2 ≠ [] := by
  intro p hp
  simp only [maskWindows, List.mem_map] at hp
  obtain ⟨i, hi, rfl⟩ := hp
  have hlt : i < mask.length := windowStarts_lt hw hi
  have hdrop : 0 < (mask.drop i).length := by
    rw [List.length_drop]
    omega
  have : 0 < ((mask.drop i).take w).length := by
    rw [List.length_take]
    exact lt_min hw hdrop
  exact List.ne_nil_of_length_pos this

theorem buildBlocks_eq_spec (mask : List Char) (w : Nat) (T : ℚ) (hw : 0 < w) :
    buildBlocks mask w T = specConservedBlocks mask w T := by
  have h := (blockLoop_closed_open T (maskWindows mask w) (maskWindows_ne_nil hw)).1 [] 0
  simpa [buildBlocks, specConservedBlocks] using h

/-! ### Helper lemmas: block positivity and the significance filter -/

theorem saveBlock_blocks_pos {st : BlockState} (h : ∀ b ∈ st.blocks, 0 < b.length) :
    ∀ b ∈ (saveBlock st).blocks, 0 < b.length := by
  intro b hb
  unfold saveBlock at hb
  by_cases hc : st.currentBlock.length > 0
  · rw [if_pos hc] at hb
    rcases List.mem_append.mp hb with hb | hb
    · exact h b hb
    · rcases List.mem_singleton.mp hb with rfl
      exact hc
  · rw [if_neg hc] at hb
    exact h b hb

theorem blockLoop_blocks_pos (T : ℚ) :
    ∀ (ws : List (Nat × List Char)) (st : BlockState),
      (∀ b ∈ st.blocks, 0 < b.length) → ∀ b ∈ (blockLoop T st ws).blocks, 0 < b.length := by
  intro ws
  induction ws with
  | nil => intro st h; exact h
  | cons p rest ih =>
    intro st h
    obtain ⟨i, win⟩ := p
    by_cases hacc : windowIdentity win ≥ T
    · have : blockLoop T st ((i, win) :: rest) =
          blockLoop T
            { (if st.inBlock then st else { st with blockStart := i, inBlock := true }) with
              currentBlock :=
                (if st.inBlock then st else { st with blockStart := i, inBlock := true }).currentBlock
                  ++ win } rest := by
        simp [blockLoop, hacc]
      rw [this]
      apply ih
      by_cases hib : st.inBlock <;> simp [hib] <;> exact h
    · have : blockLoop T st ((i, win) :: rest) = blockLoop T (saveBlock st) rest := by
        simp [blockLoop, hacc]
      rw [this]
      exact ih (saveBlock st) (saveBlock_blocks_pos h)

theorem buildBlocks_pos (mask : List Char) (w : Nat) (T : ℚ) :
    ∀ b ∈ buildBlocks mask w T, 0 < b.length := by
  intro b hb
  unfold buildBlocks at hb
  exact saveBlock_blocks_pos (blockLoop_blocks_pos T (maskWindows mask w) _ (by intro b hb; cases hb)) b hb

theorem filterBlocks_subset {B : List ConservedBlock} {b : ConservedBlock}
    (hb : b ∈ filterBlocks B) : b ∈ B := by
  unfold filterBlocks at hb
  by_cases h1 : B.length > 1
  · rw [if_pos h1] at hb
    by_cases h2 : (B.filter fun b => (b.length : ℚ) ≥
        (listMax (B.map fun b => b.length) : ℚ) * MIN_SIGNIFICANT_LENGTH_GROUP).length > 0
    · rw [if_pos h2] at hb
      exact List.mem_of_mem_filter hb
    · rw [if_neg h2] at hb
      exact hb
  · rw [if_neg h1] at hb
    exact hb

theorem singleton_listMax (b : ConservedBlock) :
    listMax ([b].map fun b => b.length) = b.length := by
  simp [listMax]

theorem filterBlocks_bound (B : List ConservedBlock) :
    ∀ b ∈ filterBlocks B,
      (listMax ((filterBlocks B).map fun b => b.length) : ℚ) * MIN_SIGNIFICANT_LENGTH_GROUP
        ≤ (b.length : ℚ) := by
  intro b hb
  have hconst : MIN_SIGNIFICANT_LENGTH_GROUP ≤ 1 := by norm_num [MIN_SIGNIFICANT_LENGTH_GROUP]
  have hconst0 : 0 ≤ MIN_SIGNIFICANT_LENGTH_GROUP := by norm_num [MIN_SIGNIFICANT_LENGTH_GROUP]
  by_cases h1 : B.length > 1
  · have hF : (B.filter fun b => (b.length : ℚ) ≥
        (listMax (B.map fun b => b.length) : ℚ) * MIN_SIGNIFICANT_LENGTH_GROUP).length > 0 := by
      rcases listMax_mem_or_zero (B.map fun b => b.length) with hm | h0
      · obtain ⟨b0, hb0B, hb0len⟩ := List.mem_map.mp hm
        have hpred : (b0.length : ℚ) ≥
            (listMax (B.map fun b => b.length) : ℚ) * MIN_SIGNIFICANT_LENGTH_GROUP := by
          rw [hb0len]
          exact mul_le_of_le_one_right (Nat.cast_nonneg _) hconst
        have : b0 ∈ B.filter fun b => (b.length : ℚ) ≥
            (listMax (B.map fun b => b.length) : ℚ) * MIN_SIGNIFICANT_LENGTH_GROUP :=
          List.mem_filter.mpr ⟨hb0B, decide_eq_true hpred⟩
        exact List.length_pos.mpr (List.ne_nil_of_mem this)
      · have hBne : B ≠ [] := by
          intro hnil
          rw [hnil] at h1
          simp at h1
        obtain ⟨b0, hb0B⟩ := List.exists_mem_of_ne_nil B hBne
        have hpred : (b0.length : ℚ) ≥
            (listMax (B.map fun b => b.length) : ℚ) * MIN_SIGNIFICANT_LENGTH_GROUP := by
          rw [h0]
          simp
        have : b0 ∈ B.filter fun b => (b.length : ℚ) ≥
            (listMax (B.map fun b => b.length) : ℚ) * MIN_SIGNIFICANT_LENGTH_GROUP :=
          List.mem_filter.mpr ⟨hb0B, decide_eq_true hpred⟩
        exact List.length_pos.mpr (List.ne_nil_of_mem this)
    have heq : filterBlocks B = B.filter fun b => (b.length : ℚ) ≥
        (listMax (B.map fun b => b.length) : ℚ) * MIN_SIGNIFICANT_LENGTH_GROUP := by
      unfold filterBlocks
      rw [if_pos h1, if_pos hF]
    rw [heq] at hb ⊢
    have hpredb : (b.length : ℚ) ≥
        (listMax (B.map fun b => b.length) : ℚ) * MIN_SIGNIFICANT_LENGTH_GROUP :=
      of_decide_eq_true ((List.mem_filter.mp hb).2)
    have hmaxle : listMax ((B.filter fun b => (b.length : ℚ) ≥
        (listMax (B.map fun b => b.length) : ℚ) * MIN_SIGNIFICANT_LENGTH_GROUP).map
          fun b => b.length) ≤ listMax (B.map fun b => b.length) := by
      apply listMax_le
      intro x hx
      obtain ⟨b', hb', rfl⟩ := List.mem_map.mp hx
      exact le_listMax_of_mem (List.mem_map_of_mem _ (List.mem_of_mem_filter hb'))
    calc (listMax ((B.filter fun b => (b.length : ℚ) ≥
            (listMax (B.map fun b => b.length) : ℚ) * MIN_SIGNIFICANT_LENGTH_GROUP).map
              fun b => b.length) : ℚ) * MIN_SIGNIFICANT_LENGTH_GROUP
        ≤ (listMax (B.map fun b => b.length) : ℚ) * MIN_SIGNIFICANT_LENGTH_GROUP := by
          apply mul_le_mul_of_nonneg_right _ hconst0
          exact_mod_cast hmaxle
      _ ≤ (b.length : ℚ) := hpredb
  · have heq : filterBlocks B = B := by
      unfold filterBlocks
      rw [if_neg h1]
    rw [heq] at hb ⊢
    have hlen1 : B.length = 1 := by
      have : 0 < B.length := List.length_pos.mpr (List.ne_nil_of_mem hb)
      omega
    obtain ⟨a, rfl⟩ := List.length_eq_one.mp hlen1
    rcases List.mem_singleton.mp hb with rfl
    rw [singleton_listMax]
    exact mul_le_of_le_one_right (Nat.cast_nonneg _) hconst

/-! ### Helper lemmas: the offset scan -/

theorem offsetRangeGo_append : ∀ (a b : Nat) (lo : Int),
    offsetRangeGo (a + b) lo = offsetRangeGo a lo ++ offsetRangeGo b (lo + a) := by
  intro a
  induction a with
  | zero =>
    intro b lo
    simp [offsetRangeGo]
  | succ n ih =>
    intro b lo
    have h1 : n + 1 + b = (n + b) + 1 := by omega
    rw [h1]
    show lo :: offsetRangeGo (n + b) (lo + 1) =
      (lo :: offsetRangeGo n (lo + 1)) ++ offsetRangeGo b (lo + ((n + 1 : Nat) : Int))
    rw [ih b (lo + 1)]
    have h2 : lo + 1 + (n : Int) = lo + ((n + 1 : Nat) : Int) := by push_cast; ring
    rw [List.cons_append, h2]

theorem scanOffsets_no_break (seq1 seq2 : List Char) (mo : Nat) :
    ∀ (l : List Int) (st : ScanState),
      (∀ o ∈ l, ¬ overlapLenAt seq1 seq2 o < mo → (comparisonAt seq1 seq2 o).mismatches ≠ 0) →
      scanOffsets seq1 seq2 mo st l = scanOffsetsAll seq1 seq2 mo st l := by
  intro l
  induction l with
  | nil => intro st _; rfl
  | cons o rest ih =>
    intro st h
    by_cases hskip : overlapLenAt seq1 seq2 o < mo
    · simp only [scanOffsets, scanOffsetsAll, if_pos hskip]
      exact ih st fun o ho => h o (List.mem_cons_of_mem _ ho)
    · have hmm : (comparisonAt seq1 seq2 o).mismatches ≠ 0 :=
        h o (List.mem_cons_self _ _) hskip
      simp only [scanOffsets, scanOffsetsAll, if_neg hskip, if_neg hmm]
      exact ih _ fun o ho => h o (List.mem_cons_of_mem _ ho)

theorem scanOffsets_low_append (seq1 seq2 : List Char) (mo : Nat) (hmo : 1 ≤ mo) :
    ∀ (l rest : List Int) (st : ScanState),
      (∀ o ∈ l, (comparisonAt seq1 seq2 o).identity < 99 / 100) →
      st.bestIdentity < 99 / 100 →
      ∃ st', scanOffsets seq1 seq2 mo st (l ++ rest) = scanOffsets seq1 seq2 mo st' rest ∧
        st'.bestIdentity < 99 / 100 := by
  intro l
  induction l with
  | nil =>
    intro rest st _ hst
    exact ⟨st, rfl, hst⟩
  | cons o l ih =>
    intro rest st h hst
    by_cases hskip : overlapLenAt seq1 seq2 o < mo
    · have : scanOffsets seq1 seq2 mo st ((o :: l) ++ rest) =
          scanOffsets seq1 seq2 mo st (l ++ rest) := by
        simp only [List.cons_append, scanOffsets, if_pos hskip]
        rfl
      rw [this]
      exact ih rest st (fun o ho => h o (List.mem_cons_of_mem _ ho)) hst
    · have hpos : 0 < overlapLenAt seq1 seq2 o := by omega
      have hid : (comparisonAt seq1 seq2 o).identity < 99 / 100 := h o (List.mem_cons_self _ _)
      have hmm : (comparisonAt seq1 seq2 o).mismatches ≠ 0 :=
        mismatches_ne_zero_of_identity_lt _ _ _ hpos hid
      by_cases hbetter : (comparisonAt seq1 seq2 o).identity > st.bestIdentity + 1 / 100 ∨
          (|(comparisonAt seq1 seq2 o).identity - st.bestIdentity| < 1 / 100 ∧
            overlapLenAt seq1 seq2 o > st.bestOverlapLen)
      · have : scanOffsets seq1 seq2 mo st ((o :: l) ++ rest) =
            scanOffsets seq1 seq2 mo
              { bestOffset1 := start1At o, bestOffset2 := start2At o
                bestIdentity := (comparisonAt seq1 seq2 o).identity
                bestMask := (comparisonAt seq1 seq2 o).mask
                bestOverlapLen := overlapLenAt seq1 seq2 o
                bestMismatches := ((comparisonAt seq1 seq2 o).mismatches : ℕ∞) } (l ++ rest) := by
          simp only [List.cons_append, scanOffsets, if_neg hskip, if_pos hbetter, if_neg hmm]
          rfl
        rw [this]
        exact ih rest _ (fun o ho => h o (List.mem_cons_of_mem _ ho)) hid
      · have : scanOffsets seq1 seq2 mo st ((o :: l) ++ rest) =
            scanOffsets seq1 seq2 mo st (l ++ rest) := by
          simp only [List.cons_append, scanOffsets, if_neg hskip, if_neg hbetter, if_neg hmm]
          rfl
        rw [this]
        exact ih rest st (fun o ho => h o (List.mem_cons_of_mem _ ho)) hst

theorem overlapLenAt_zero (s t : List Char) : overlapLenAt s t 0 = min s.length t.length := by
  simp [overlapLenAt, start1At, start2At]

theorem comparisonAt_zero_self (A : List Char) (hA : A ≠ []) :
    comparisonAt A A 0 = { matchCount := A.length, mismatches := 0, identity := 1, mask := A } := by
  unfold comparisonAt
  rw [overlapLenAt_zero]
  simp only [start1At, start2At, min_self]
  norm_num
  exact compareSequenceRegions_self A hA

theorem scanOffsets_zero_self (A : List Char) (hA : A ≠ []) (mo : Nat) (hmo : mo ≤ A.length)
    (st : ScanState) (hst : st.bestIdentity < 99 / 100) (rest : List Int) :
    scanOffsets A A mo st (0 :: rest) =
      { bestOffset1 := 0, bestOffset2 := 0, bestIdentity := 1, bestMask := A
        bestOverlapLen := A.length, bestMismatches := 0 } := by
  have hover : overlapLenAt A A 0 = A.length := by rw [overlapLenAt_zero, min_self]
  have hskip : ¬ overlapLenAt A A 0 < mo := by omega
  have hcmp := comparisonAt_zero_self A hA
  have hbetter : (comparisonAt A A 0).identity > st.bestIdentity + 1 / 100 ∨
      (|(comparisonAt A A 0).identity - st.bestIdentity| < 1 / 100 ∧
        overlapLenAt A A 0 > st.bestOverlapLen) := by
    left
    rw [hcmp]
    show (1 : ℚ) > st.bestIdentity + 1 / 100
    linarith
  have hmm : (comparisonAt A A 0).mismatches = 0 := by rw [hcmp]
  simp only [scanOffsets, if_neg hskip, if_pos hbetter, if_pos hmm]
  rw [hcmp, hover]
  simp [start1At, start2At]

theorem minOverlapOf_pos (s1 s2 : List Char) (h1 : s1 ≠ []) (h2 : s2 ≠ []) :
    1 ≤ minOverlapOf s1 s2 := by
  apply Nat.ceil_pos.mpr
  apply mul_pos
  · have hmin : 0 < min s1.length s2.length :=
      lt_min (List.length_pos.mpr h1) (List.length_pos.mpr h2)
    exact_mod_cast hmin
  · norm_num [MIN_SEQUENCE_OVERLAP_PCT]

theorem minOverlapOf_le_min (s1 s2 : List Char) :
    minOverlapOf s1 s2 ≤ min s1.length s2.length := by
  apply Nat.ceil_le.mpr
  have h0 : (0 : ℚ) ≤ min (s1.length : ℚ) (s2.length : ℚ) :=
    le_min (Nat.cast_nonneg _) (Nat.cast_nonneg _)
  have hc : ((min s1.length s2.length : Nat) : ℚ) = min (s1.length : ℚ) (s2.length : ℚ) :=
    Nat.cast_min s1.length s2.length
  rw [MIN_SEQUENCE_OVERLAP_PCT, hc]
  linarith

theorem compareSequences_scan (s1 s2 : List Char) (h1 : s1 ≠ []) (h2 : s2 ≠ []) :
    compareSequences s1 s2 =
      (let st := scanOffsets s1 s2 (minOverlapOf s1 s2) initScanState
        (offsetRange (-(s2.length : Int) + (minOverlapOf s1 s2 : Int))
          ((s1.length : Int) - (minOverlapOf s1 s2 : Int)))
       { mask := st.bestMask
         mismatches := st.bestMismatches
         length := st.bestOverlapLen
         identity := st.bestIdentity
         truncated := (s1.length != s2.length) || (st.bestOffset1 != 0) || (st.bestOffset2 != 0)
         offset1 := st.bestOffset1
         offset2 := st.bestOffset2
         conservedBlocks := findConservedBlocks st.bestMask SEGMENT_WINDOW_LENGTH MIN_IDENTITY }) := by
  unfold compareSequences
  rw [if_neg]
  push_neg
  exact ⟨fun h => h1 (List.length_eq_zero.mp h), fun h => h2 (List.length_eq_zero.mp h)⟩

theorem compareSequences_self_scan (A : List Char) (hA : A ≠ [])
    (hlow : ∀ o ∈ offsetRange (-(A.length : Int) + (minOverlapOf A A : Int)) (-1),
      (comparisonAt A A o).identity < 99 / 100) :
    compareSequences A A =
      { mask := A, mismatches := 0, length := A.length, identity := 1, truncated := false,
        offset1 := 0, offset2 := 0,
        conservedBlocks := findConservedBlocks A SEGMENT_WINDOW_LENGTH MIN_IDENTITY } := by
  have hmo1 : 1 ≤ minOverlapOf A A := minOverlapOf_pos A A hA hA
  have hmole : minOverlapOf A A ≤ A.length := by
    have h := minOverlapOf_le_min A A
    rwa [min_self] at h
  have hcount : (((A.length : Int) - (minOverlapOf A A : Int)) -
      (-(A.length : Int) + (minOverlapOf A A : Int)) + 1).toNat =
      (A.length - minOverlapOf A A) + ((A.length - minOverlapOf A A) + 1) := by
    omega
  have hd : ((A.length - minOverlapOf A A : Nat) : Int) =
      (A.length : Int) - (minOverlapOf A A : Int) := by
    omega
  have hrange : offsetRange (-(A.length : Int) + (minOverlapOf A A : Int))
        ((A.length : Int) - (minOverlapOf A A : Int)) =
      offsetRangeGo (A.length - minOverlapOf A A) (-(A.length : Int) + (minOverlapOf A A : Int))
        ++ (0 :: offsetRangeGo (A.length - minOverlapOf A A) 1) := by
    unfold offsetRange
    rw [hcount, offsetRangeGo_append]
    congr 1
    have hlo0 : (-(A.length : Int) + (minOverlapOf A A : Int)) +
        ((A.length - minOverlapOf A A : Nat) : Int) = 0 := by
      rw [hd]; ring
    rw [hlo0]
    show (0 : Int) :: offsetRangeGo (A.length - minOverlapOf A A) (0 + 1) = _
    norm_num
  have hlowlist : offsetRange (-(A.length : Int) + (minOverlapOf A A : Int)) (-1) =
      offsetRangeGo (A.length - minOverlapOf A A)
        (-(A.length : Int) + (minOverlapOf A A : Int)) := by
    unfold offsetRange
    congr 1
    omega
  rw [hlowlist] at hlow
  obtain ⟨st', heq, hst'⟩ := scanOffsets_low_append A A (minOverlapOf A A) hmo1
    (offsetRangeGo (A.length - minOverlapOf A A) (-(A.length : Int) + (minOverlapOf A A : Int)))
    (0 :: offsetRangeGo (A.length - minOverlapOf A A) 1)
    initScanState hlow (by norm_num [initScanState])
  have hfinal : scanOffsets A A (minOverlapOf A A) initScanState
      (offsetRange (-(A.length : Int) + (minOverlapOf A A : Int))
        ((A.length : Int) - (minOverlapOf A A : Int))) =
      { bestOffset1 := 0, bestOffset2 := 0, bestIdentity := 1, bestMask := A
        bestOverlapLen := A.length, bestMismatches := 0 } := by
    rw [hrange, heq, scanOffsets_zero_self A hA (minOverlapOf A A) hmole st' hst']
  rw [compareSequences_scan A A hA hA]
  simp [hfinal]

/-! ### Helper lemmas: the reading-frame search -/

theorem frameStep_eq_eval (seq1 seq2 : List Char) (o1 o2 len : Nat) (st : FrameBest)
    (p : Nat × Nat) (h : ¬ adjustedLenAt len p < AA_SEGMENT_WINDOW_LENGTH) :
    frameStep seq1 seq2 o1 o2 len st p = frameStepEval seq1 seq2 o1 o2 len st p := by
  simp only [frameStep, frameStepEval, if_neg h]

theorem foldl_frameStep_filter (seq1 seq2 : List Char) (o1 o2 len : Nat) :
    ∀ (l : List (Nat × Nat)) (st : FrameBest),
      l.foldl (frameStep seq1 seq2 o1 o2 len) st =
        (l.filter fun p => ¬ adjustedLenAt len p < AA_SEGMENT_WINDOW_LENGTH).foldl
          (frameStepEval seq1 seq2 o1 o2 len) st := by
  intro l
  induction l with
  | nil => intro st; rfl
  | cons p rest ih =>
    intro st
    by_cases h : adjustedLenAt len p < AA_SEGMENT_WINDOW_LENGTH
    · have hstep : frameStep seq1 seq2 o1 o2 len st p = st := by
        simp only [frameStep, if_pos h]
      rw [List.foldl_cons, hstep, ih st, List.filter_cons_of_neg (by simp [h])]
    · rw [List.foldl_cons, frameStep_eq_eval seq1 seq2 o1 o2 len st p h,
        List.filter_cons_of_pos (by simp [h]), List.foldl_cons, ih]

theorem frameStep_frames_lt (seq1 seq2 : List Char) (o1 o2 len : Nat) (st : FrameBest)
    (p : Nat × Nat) (hp : p.1 < 3 ∧ p.2 < 3)
    (hst : st.bestFrame1 < 3 ∧ st.bestFrame2 < 3) :
    (frameStep seq1 seq2 o1 o2 len st p).bestFrame1 < 3 ∧
      (frameStep seq1 seq2 o1 o2 len st p).bestFrame2 < 3 := by
  unfold frameStep
  by_cases h : adjustedLenAt len p < AA_SEGMENT_WINDOW_LENGTH
  · rw [if_pos h]; exact hst
  · rw [if_neg h]
    by_cases hgt : (frameComparison seq1 seq2 o1 o2 len p).1 > st.bestIdentity
    · simp only [if_pos hgt]
      exact hp
    · simp only [if_neg hgt]
      exact hst

theorem foldl_frameStep_frames_lt (seq1 seq2 : List Char) (o1 o2 len : Nat) :
    ∀ (l : List (Nat × Nat)) (st : FrameBest), (∀ p ∈ l, p.1 < 3 ∧ p.2 < 3) →
      st.bestFrame1 < 3 ∧ st.bestFrame2 < 3 →
      (l.foldl (frameStep seq1 seq2 o1 o2 len) st).bestFrame1 < 3 ∧
        (l.foldl (frameStep seq1 seq2 o1 o2 len) st).bestFrame2 < 3 := by
  intro l
  induction l with
  | nil => intro st _ hst; exact hst
  | cons p rest ih =>
    intro st h hst
    rw [List.foldl_cons]
    exact ih _ (fun q hq => h q (List.mem_cons_of_mem _ hq))
      (frameStep_frames_lt seq1 seq2 o1 o2 len st p (h p (List.mem_cons_self _ _)) hst)

theorem frameCombos_lt : ∀ p ∈ frameCombos, p.1 < 3 ∧ p.2 < 3 := by
  decide

theorem foldl_frameStep_skip_all (seq1 seq2 : List Char) (o1 o2 len : Nat) :
    ∀ (l : List (Nat × Nat)) (st : FrameBest),
      (∀ p ∈ l, adjustedLenAt len p < AA_SEGMENT_WINDOW_LENGTH) →
      l.foldl (frameStep seq1 seq2 o1 o2 len) st = st := by
  intro l
  induction l with
  | nil => intro st _; rfl
  | cons p rest ih =>
    intro st h
    rw [List.foldl_cons]
    have hstep : frameStep seq1 seq2 o1 o2 len st p = st := by
      simp only [frameStep, if_pos (h p (List.mem_cons_self _ _))]
    rw [hstep]
    exact ih st fun q hq => h q (List.mem_cons_of_mem _ hq)

theorem foldl_frameStep_nonpos (seq1 seq2 : List Char) (o1 o2 len : Nat) :
    ∀ (l : List (Nat × Nat)),
      (∀ p ∈ l, ¬ adjustedLenAt len p < AA_SEGMENT_WINDOW_LENGTH →
        (frameComparison seq1 seq2 o1 o2 len p).1 ≤ 0) →
      l.foldl (frameStep seq1 seq2 o1 o2 len) ⟨0, 0, 0, [], []⟩ = ⟨0, 0, 0, [], []⟩ := by
  intro l
  induction l with
  | nil => intro _; rfl
  | cons p rest ih =>
    intro h
    rw [List.foldl_cons]
    have hstep : frameStep seq1 seq2 o1 o2 len ⟨0, 0, 0, [], []⟩ p = ⟨0, 0, 0, [], []⟩ := by
      unfold frameStep
      by_cases hskip : adjustedLenAt len p < AA_SEGMENT_WINDOW_LENGTH
      · rw [if_pos hskip]
      · rw [if_neg hskip]
        have hle : (frameComparison seq1 seq2 o1 o2 len p).1 ≤ 0 :=
          h p (List.mem_cons_self _ _) hskip
        have : ¬ (frameComparison seq1 seq2 o1 o2 len p).1 >
            (FrameBest.mk 0 0 0 [] []).bestIdentity := by
          simp only [not_lt]
          exact hle
        simp only [if_neg this]
    rw [hstep]
    exact ih fun q hq => h q (List.mem_cons_of_mem _ hq)

/-! ### Claim theorems -/

unseal Rat.mul Rat.add Rat.sub Rat.inv in
/-- C1 counterexample: for the periodic sequence `AAAA`, `compareSequences`
breaks at the first perfect self-overlap (offset −2), so the result has
offset2 = 2 and length = 2 rather than offset2 = 0 and length = 4; the
claimed conjunction is false at `A = "AAAA"`. -/
theorem compareSequences_self_periodic_counterexample :
    ¬ ((compareSequences exA exA).identity = 1 ∧
       (compareSequences exA exA).mismatches = 0 ∧
       (compareSequences exA exA).offset1 = 0 ∧
       (compareSequences exA exA).offset2 = 0 ∧
       (compareSequences exA exA).length = exA.length) := by
  decide

/-- C1 (amended): for every non-empty sequence `A` such that every
self-overlap scanned before offset 0 (the offsets `-(len)+minOverlap … -1`)
has identity below 0.99, `compareSequences(A, A)` yields identity 1.0,
mismatches 0, offset1 = offset2 = 0 and length = len(A). -/
theorem compareSequences_self_aligned (A : List Char) (hA : A ≠ [])
    (hlow : ∀ o ∈ offsetRange (-(A.length : Int) + (minOverlapOf A A : Int)) (-1),
      (comparisonAt A A o).identity < 99 / 100) :
    (compareSequences A A).identity = 1 ∧
    (compareSequences A A).mismatches = 0 ∧
    (compareSequences A A).offset1 = 0 ∧
    (compareSequences A A).offset2 = 0 ∧
    (compareSequences A A).length = A.length := by
  rw [compareSequences_self_scan A hA hlow]
  exact ⟨rfl, rfl, rfl, rfl, rfl⟩

unseal Rat.mul Rat.add Rat.sub Rat.inv in
/-- C1 witness: the hypotheses of `compareSequences_self_aligned` hold for
the spec's example `ATGCCCGGG`, and the conclusion follows. -/
theorem compareSequences_self_aligned_witness :
    (exW ≠ [] ∧
      ∀ o ∈ offsetRange (-(exW.length : Int) + (minOverlapOf exW exW : Int)) (-1),
        (comparisonAt exW exW o).identity < 99 / 100) ∧
    ((compareSequences exW exW).identity = 1 ∧
     (compareSequences exW exW).mismatches = 0 ∧
     (compareSequences exW exW).offset1 = 0 ∧
     (compareSequences exW exW).offset2 = 0 ∧
     (compareSequences exW exW).length = exW.length) :=
  ⟨⟨by decide, by decide⟩, compareSequences_self_aligned exW (by decide) (by decide)⟩

unseal Rat.mul Rat.add Rat.sub Rat.inv in
/-- C2 counterexample: on the periodic pair `AAAA`/`AAAA` the early-exit scan
stops at the first perfect offset (overlap 2, offset2 = 2), while the
exhaustive scan under the stated selection rule later replaces it with the
longer perfect overlap at offset 0; the two results differ. -/
theorem earlyExit_differs_counterexample :
    compareSequences exA exA ≠ compareSequencesAll exA exA ∧
    (compareSequences exA exA).offset2 = 2 ∧
    (compareSequences exA exA).length = 2 ∧
    (compareSequencesAll exA exA).offset2 = 0 ∧
    (compareSequencesAll exA exA).length = 4 := by
  refine ⟨?_, by decide, by decide, by decide, by decide⟩
  decide

/-- C2 (amended): once an offset attains mismatches = 0, a later offset with
identity within 0.01 and larger overlap (in particular a longer perfect
match) can still be selected over it by rule (2), so the early-exit scan and
the exhaustive scan can disagree; they agree whenever no offset of the
enumerated range with sufficient overlap attains zero mismatches. -/
theorem compareSequences_eq_exhaustive_of_no_perfect_offset (s1 s2 : List Char)
    (h : ∀ o ∈ offsetRange (-(s2.length : Int) + (minOverlapOf s1 s2 : Int))
        ((s1.length : Int) - (minOverlapOf s1 s2 : Int)),
      ¬ overlapLenAt s1 s2 o < minOverlapOf s1 s2 →
        (comparisonAt s1 s2 o).mismatches ≠ 0) :
    compareSequences s1 s2 = compareSequencesAll s1 s2 := by
  unfold compareSequences compareSequencesAll
  by_cases hc : s1.length = 0 ∨ s2.length = 0
  · rw [if_pos hc, if_pos hc]
  · rw [if_neg hc, if_neg hc]
    have hscan := scanOffsets_no_break s1 s2 (minOverlapOf s1 s2)
      (offsetRange (-(s2.length : Int) + (minOverlapOf s1 s2 : Int))
        ((s1.length : Int) - (minOverlapOf s1 s2 : Int))) initScanState h
    simp only [hscan]

unseal Rat.mul Rat.add Rat.sub Rat.inv in
/-- C2 witness: for the fully mismatching pair `AT`/`GC` no offset attains
zero mismatches, and the early-exit scan equals the exhaustive scan. -/
theorem compareSequences_eq_exhaustive_witness :
    (∀ o ∈ offsetRange (-(exB2.length : Int) + (minOverlapOf exB1 exB2 : Int))
        ((exB1.length : Int) - (minOverlapOf exB1 exB2 : Int)),
      ¬ overlapLenAt exB1 exB2 o < minOverlapOf exB1 exB2 →
        (comparisonAt exB1 exB2 o).mismatches ≠ 0) ∧
    compareSequences exB1 exB2 = compareSequencesAll exB1 exB2 :=
  ⟨by decide, compareSequences_eq_exhaustive_of_no_perfect_offset exB1 exB2 (by decide)⟩

unseal Rat.mul Rat.add Rat.sub Rat.inv in
/-- C3 counterexample: for two empty inputs the degenerate branch returns
truncated = true although both offsets are 0 and the input lengths are
equal, so the claimed equivalence fails at `A = B = ""`. -/
theorem truncated_iff_counterexample :
    ¬ (((compareSequences ([] : List Char) ([] : List Char)).truncated = true) ↔
       (([] : List Char).length ≠ ([] : List Char).length ∨
        (compareSequences ([] : List Char) ([] : List Char)).offset1 ≠ 0 ∨
        (compareSequences ([] : List Char) ([] : List Char)).offset2 ≠ 0)) := by
  decide

/-- C3 (amended): for non-empty inputs, the result of `compareSequences` has
truncated = true iff the input lengths differ or either reported offset is
non-zero; when either input is empty, truncated is true regardless. -/
theorem truncated_iff_of_nonempty (s1 s2 : List Char) (h1 : s1 ≠ []) (h2 : s2 ≠ []) :
    (compareSequences s1 s2).truncated = true ↔
      (s1.length ≠ s2.length ∨ (compareSequences s1 s2).offset1 ≠ 0 ∨
        (compareSequences s1 s2).offset2 ≠ 0) := by
  rw [compareSequences_scan s1 s2 h1 h2]
  simp only [Bool.or_eq_true, bne_iff_ne]
  exact or_assoc

/-- C3 witness: for the non-empty pair `A`/`A` the equivalence holds (both
sides false: equal lengths and zero offsets). -/
theorem truncated_iff_of_nonempty_witness :
    ((['A'] : List Char) ≠ [] ∧ (['A'] : List Char) ≠ []) ∧
    ((compareSequences ['A'] ['A']).truncated = true ↔
      ((['A'] : List Char).length ≠ (['A'] : List Char).length ∨
        (compareSequences ['A'] ['A']).offset1 ≠ 0 ∨
        (compareSequences ['A'] ['A']).offset2 ≠ 0)) :=
  ⟨⟨by decide, by decide⟩, truncated_iff_of_nonempty ['A'] ['A'] (by decide) (by decide)⟩

/-- C4 (confirmed): every block returned by `findConservedBlocks` has
positive length, and its length is at least
`MIN_SIGNIFICANT_LENGTH_GROUP` (0.15) times the largest returned block
length; in particular the filter can never drop every block, so the
exception clause of the claim never fires. -/
theorem findConservedBlocks_positive_significant (mask : List Char) (w : Nat) (T : ℚ) :
    ∀ b ∈ findConservedBlocks mask w T,
      0 < b.length ∧
      (listMax ((findConservedBlocks mask w T).map fun b => b.length) : ℚ) *
          MIN_SIGNIFICANT_LENGTH_GROUP ≤ (b.length : ℚ) := by
  intro b hb
  unfold findConservedBlocks at hb ⊢
  exact ⟨buildBlocks_pos mask w T b (filterBlocks_subset hb),
    filterBlocks_bound (buildBlocks mask w T) b hb⟩

unseal Rat.mul Rat.add Rat.sub Rat.inv in
/-- C4 witness: the singleton mask `A` with window 1 yields the single block
`[0, 1)`, which is positive and significant. -/
theorem findConservedBlocks_positive_significant_witness :
    (⟨0, 1, ['A'], 1⟩ : ConservedBlock) ∈ findConservedBlocks ['A'] 1 MIN_IDENTITY ∧
    (0 < (⟨0, 1, ['A'], 1⟩ : ConservedBlock).length ∧
      (listMax ((findConservedBlocks ['A'] 1 MIN_IDENTITY).map fun b => b.length) : ℚ) *
          MIN_SIGNIFICANT_LENGTH_GROUP ≤ ((⟨0, 1, ['A'], 1⟩ : ConservedBlock).length : ℚ)) :=
  ⟨by decide, findConservedBlocks_positive_significant ['A'] 1 MIN_IDENTITY _ (by decide)⟩

set_option maxRecDepth 10000 in
unseal Rat.mul Rat.add Rat.sub Rat.inv in
/-- C5 (confirmed): for every mask, positive window size and threshold, the
blocks constructed by the window loop equal the spec-side description
(windows at 0, W, 2W, …, acceptance iff identity is at least the threshold,
maximal runs of consecutive accepted windows merged into single blocks, in
left-to-right order); and the two concrete scenarios: a 66-symbol fully
matching mask yields exactly one block of length 66, and two 66-symbol
matching windows separated by 66 mismatch positions yield exactly two
blocks, the second starting at 132. -/
theorem findConservedBlocks_window_merge :
    (∀ (mask : List Char) (w : Nat) (T : ℚ), 0 < w →
      buildBlocks mask w T = specConservedBlocks mask w T) ∧
    findConservedBlocks mask66 66 MIN_IDENTITY =
      [⟨0, 66, List.replicate 66 'A', 66⟩] ∧
    findConservedBlocks mask198 66 MIN_IDENTITY =
      [⟨0, 66, List.replicate 66 'A', 66⟩, ⟨132, 198, List.replicate 66 'A', 66⟩] := by
  refine ⟨fun mask w T hw => buildBlocks_eq_spec mask w T hw, by decide, by decide⟩

unseal Rat.mul Rat.add Rat.sub Rat.inv in
/-- C5 witness: the constructed blocks agree with the spec-side grouping at
the concrete mask `A` with window size 1. -/
theorem findConservedBlocks_window_merge_witness :
    0 < 1 ∧ buildBlocks ['A'] 1 MIN_IDENTITY = specConservedBlocks ['A'] 1 MIN_IDENTITY :=
  ⟨by decide, findConservedBlocks_window_merge.1 ['A'] 1 MIN_IDENTITY (by decide)⟩

/-- C6 (confirmed): the reading-frame search always returns frames in
{0, 1, 2}; it equals the fold over exactly those phase combinations whose
`adjustedLen = min(length − frame1, length − frame2)` reaches the
amino-acid window (22), i.e. a combination is skipped exactly when
`adjustedLen < 22`; and when every one of the 9 combinations is skipped the
result is the defined empty result: frames 0, identity 0, empty translated
strings, offsets unshifted. -/
theorem findBestReadingFrame_frames_guard_empty (seq1 seq2 : List Char) (o1 o2 len : Nat) :
    ((findBestReadingFrame seq1 seq2 o1 o2 len).frame1 < 3 ∧
     (findBestReadingFrame seq1 seq2 o1 o2 len).frame2 < 3) ∧
    (findBestReadingFrame seq1 seq2 o1 o2 len =
      (let st := (evaluatedCombos len).foldl (frameStepEval seq1 seq2 o1 o2 len) ⟨0, 0, 0, [], []⟩
       { frame1 := st.bestFrame1, frame2 := st.bestFrame2, identity := st.bestIdentity
         aa1 := st.bestAA1, aa2 := st.bestAA2
         adjustedOffset1 := o1 + st.bestFrame1, adjustedOffset2 := o2 + st.bestFrame2 })) ∧
    ((∀ p ∈ frameCombos, adjustedLenAt len p < AA_SEGMENT_WINDOW_LENGTH) →
      findBestReadingFrame seq1 seq2 o1 o2 len =
        { frame1 := 0, frame2 := 0, identity := 0, aa1 := [], aa2 := []
          adjustedOffset1 := o1, adjustedOffset2 := o2 }) := by
  refine ⟨?_, ?_, ?_⟩
  · exact foldl_frameStep_frames_lt seq1 seq2 o1 o2 len frameCombos ⟨0, 0, 0, [], []⟩
      frameCombos_lt ⟨by decide, by decide⟩
  · unfold findBestReadingFrame evaluatedCombos
    rw [foldl_frameStep_filter]
  · intro h
    unfold findBestReadingFrame
    rw [foldl_frameStep_skip_all seq1 seq2 o1 o2 len frameCombos ⟨0, 0, 0, [], []⟩ h]
    simp

/-- C6 witness: with length 5 (< 22) every combination is skipped and the
search returns the defined empty result, with frames in range. -/
theorem findBestReadingFrame_frames_guard_empty_witness :
    (∀ p ∈ frameCombos, adjustedLenAt 5 p < AA_SEGMENT_WINDOW_LENGTH) ∧
    findBestReadingFrame ['A'] ['A'] 0 0 5 =
      { frame1 := 0, frame2 := 0, identity := 0, aa1 := [], aa2 := []
        adjustedOffset1 := 0, adjustedOffset2 := 0 } :=
  ⟨by decide, (findBestReadingFrame_frames_guard_empty ['A'] ['A'] 0 0 5).2.2 (by decide)⟩

/-- C7 (confirmed): the protein comparison result has truncated = true iff
the two translated strings have different lengths, and its protein-space
offsets are the frame-adjusted nucleotide offsets divided by the codon size
(floor), reported alongside the winning frames. -/
theorem compareProteins_truncated_offsets (s1 s2 : List Char) (r : AlignmentResult) :
    ((compareProteins s1 s2 r).result.truncated = true ↔
      (compareProteins s1 s2 r).aa1.length ≠ (compareProteins s1 s2 r).aa2.length) ∧
    (compareProteins s1 s2 r).result.offset1 =
      (r.offset1 + (adjustForReadingFrame s1 s2 r).frame1) / CODON_SIZE ∧
    (compareProteins s1 s2 r).result.offset2 =
      (r.offset2 + (adjustForReadingFrame s1 s2 r).frame2) / CODON_SIZE ∧
    (compareProteins s1 s2 r).result.frame1 = (adjustForReadingFrame s1 s2 r).frame1 ∧
    (compareProteins s1 s2 r).result.frame2 = (adjustForReadingFrame s1 s2 r).frame2 :=
  ⟨by simp [compareProteins, bne_iff_ne], rfl, rfl, rfl, rfl⟩

/-- C8 (confirmed): when either input is empty, `compareSequences` returns
the degenerate result (empty mask, 0 mismatches, length 0, identity 0,
truncated, zero offsets, no conserved blocks) without scanning any offset. -/
theorem compareSequences_empty_degenerate (s1 s2 : List Char)
    (h : s1.length = 0 ∨ s2.length = 0) :
    compareSequences s1 s2 =
      { mask := [], mismatches := 0, length := 0, identity := 0, truncated := true
        offset1 := 0, offset2 := 0, conservedBlocks := [] } := by
  unfold compareSequences
  rw [if_pos h]

/-- C8 witness: the degenerate result at the concrete pair `""`/`ATGC`. -/
theorem compareSequences_empty_degenerate_witness :
    (([] : List Char).length = 0 ∨ (['A', 'T', 'G', 'C'] : List Char).length = 0) ∧
    compareSequences [] ['A', 'T', 'G', 'C'] =
      { mask := [], mismatches := 0, length := 0, identity := 0, truncated := true
        offset1 := 0, offset2 := 0, conservedBlocks := [] } :=
  ⟨Or.inl rfl, compareSequences_empty_degenerate [] ['A', 'T', 'G', 'C'] (Or.inl rfl)⟩

/-- C9 (confirmed): `adjustForReadingFrame` always returns exactly the
result of the exhaustive 3x3 search `findBestReadingFrame`; the start-codon
detection and the frame inference from ATG positions never change the
selected frames, translated strings, identity or adjusted offsets. -/
theorem adjustForReadingFrame_eq_findBestReadingFrame (s1 s2 : List Char)
    (r : AlignmentResult) :
    adjustForReadingFrame s1 s2 r =
      findBestReadingFrame s1 s2 r.offset1 r.offset2 r.length := rfl

/-- C10 (confirmed): the best combination is updated only on strictly
greater identity starting from 0, so when no evaluated phase combination
attains identity above 0, the reading-frame search returns frames 0 with
empty translated strings, and the downstream protein result has length 0,
identity 0 and truncated = false. -/
theorem findBestReadingFrame_nonpos_default (seq1 seq2 : List Char) (o1 o2 len : Nat)
    (h : ∀ p ∈ frameCombos, ¬ adjustedLenAt len p < AA_SEGMENT_WINDOW_LENGTH →
      (frameComparison seq1 seq2 o1 o2 len p).1 ≤ 0) :
    findBestReadingFrame seq1 seq2 o1 o2 len =
      { frame1 := 0, frame2 := 0, identity := 0, aa1 := [], aa2 := []
        adjustedOffset1 := o1, adjustedOffset2 := o2 } ∧
    ∀ r : AlignmentResult, r.offset1 = o1 → r.offset2 = o2 → r.length = len →
      (compareProteins seq1 seq2 r).result.length = 0 ∧
      (compareProteins seq1 seq2 r).result.identity = 0 ∧
      (compareProteins seq1 seq2 r).result.truncated = false := by
  have hfold := foldl_frameStep_nonpos seq1 seq2 o1 o2 len frameCombos h
  have hfr : findBestReadingFrame seq1 seq2 o1 o2 len =
      { frame1 := 0, frame2 := 0, identity := 0, aa1 := [], aa2 := []
        adjustedOffset1 := o1, adjustedOffset2 := o2 } := by
    unfold findBestReadingFrame
    rw [hfold]
    simp
  refine ⟨hfr, ?_⟩
  intro r h1 h2 h3
  have hadj : adjustForReadingFrame seq1 seq2 r =
      { frame1 := 0, frame2 := 0, identity := 0, aa1 := [], aa2 := []
        adjustedOffset1 := o1, adjustedOffset2 := o2 } := by
    have heq : adjustForReadingFrame seq1 seq2 r =
        findBestReadingFrame seq1 seq2 r.offset1 r.offset2 r.length := rfl
    rw [heq, h1, h2, h3]
    exact hfr
  refine ⟨?_, ?_, ?_⟩ <;> simp [compareProteins, hadj, compareSequenceRegions, regionGo]

unseal Rat.mul Rat.add Rat.sub Rat.inv in
/-- C10 witness: 24 adenines against 24 guanines translate to fully
mismatching amino-acid strings at every evaluated combination (identity 0),
and the search and downstream protein result are the defined zero results. -/
theorem findBestReadingFrame_nonpos_default_witness :
    (∀ p ∈ frameCombos, ¬ adjustedLenAt 24 p < AA_SEGMENT_WINDOW_LENGTH →
      (frameComparison (List.replicate 24 'A') (List.replicate 24 'G') 0 0 24 p).1 ≤ 0) ∧
    findBestReadingFrame (List.replicate 24 'A') (List.replicate 24 'G') 0 0 24 =
      { frame1 := 0, frame2 := 0, identity := 0, aa1 := [], aa2 := []
        adjustedOffset1 := 0, adjustedOffset2 := 0 } ∧
    ((compareProteins (List.replicate 24 'A') (List.replicate 24 'G')
        ⟨[], 0, 24, 0, false, 0, 0, []⟩).result.length = 0 ∧
     (compareProteins (List.replicate 24 'A') (List.replicate 24 'G')
        ⟨[], 0, 24, 0, false, 0, 0, []⟩).result.identity = 0 ∧
     (compareProteins (List.replicate 24 'A') (List.replicate 24 'G')
        ⟨[], 0, 24, 0, false, 0, 0, []⟩).result.truncated = false) :=
  ⟨by decide,
   (findBestReadingFrame_nonpos_default (List.replicate 24 'A') (List.replicate 24 'G')
      0 0 24 (by decide)).1,
   (findBestReadingFrame_nonpos_default (List.replicate 24 'A') (List.replicate 24 'G')
      0 0 24 (by decide)).2 ⟨[], 0, 24, 0, false, 0, 0, []⟩ rfl rfl rfl⟩
